import Mathlib

/-!
Verification of the BLE scanner device-tracking core.

This file gives a shallow embedding of the device-registry logic of the two
firmware variants of the repository:

* `Main`   — `ble-scanner.ino` (capacity 50, weakest-signal eviction,
             whitelist / trust flags, one-shot alerting);
* `Heltec` — `heltec-ble-scanner.ino.cpp` (capacity 30, oldest-activity
             eviction, no trust tracking).

Mutable global arrays (`devices[]`, `whitelist[]`) are embedded as Lean lists
in insertion order; `deviceCount` is the list length.  `millis()` timestamps
are natural numbers; `unsigned long` subtraction is modelled exactly as
arithmetic modulo 2^32 (`usub`).
-/

namespace BLEScanner

/-- 2^32, the modulus of C++ `unsigned long` (32-bit) arithmetic on the ESP32. -/
def MOD32 : Nat := 4294967296

/-- `unsigned long` subtraction `a - b` with wraparound, as used by the firmware
for elapsed-time computations such as `currentTime - devices[i].lastSeen`. -/
def usub (a b : Nat) : Nat := (a + MOD32 - b % MOD32) % MOD32

theorem usub_eq_sub {a b : Nat} (hba : b ≤ a) (ha : a < MOD32) :
    usub a b = a - b := by
  have hb : b < MOD32 := lt_of_le_of_lt hba ha
  unfold usub
  rw [Nat.mod_eq_of_lt hb]
  have h1 : a + MOD32 - b = (a - b) + MOD32 := by omega
  rw [h1, Nat.add_mod_right, Nat.mod_eq_of_lt (by omega)]

/-- The scan pattern shared by both eviction loops: walk the list keeping the
index and field value of the current best candidate, replacing it whenever a
strictly smaller field value is found.  `idx` is the index of the head of `l`
in the full array; `best` is the pair (bestIndex, bestValue) so far. -/
def scanMinFrom {α β : Type} [LinearOrder β] (f : α → β) :
    Nat → Nat × β → List α → Nat × β
  | _, best, [] => best
  | idx, best, d :: rest =>
      scanMinFrom f (idx + 1) (if f d < best.2 then (idx, f d) else best) rest

/-- Characterisation of the scan: either no element beats the initial best
(and the initial best is returned), or the result is the first element that
attains the minimum over the initial best and all field values. -/
theorem scanMinFrom_char {α β : Type} [LinearOrder β] (f : α → β) :
    ∀ (l : List α) (idx : Nat) (best : Nat × β),
      (scanMinFrom f idx best l = best ∧ ∀ a ∈ l, best.2 ≤ f a) ∨
      (∃ j, ∃ hj : j < l.length,
        (scanMinFrom f idx best l).1 = idx + j ∧
        (scanMinFrom f idx best l).2 = f (l.get ⟨j, hj⟩) ∧
        (scanMinFrom f idx best l).2 < best.2 ∧
        (∀ a ∈ l, (scanMinFrom f idx best l).2 ≤ f a) ∧
        (∀ k (hk : k < j), (scanMinFrom f idx best l).2 <
          f (l.get ⟨k, Nat.lt_trans hk hj⟩))) := by
  intro l
  induction l with
  | nil => intro idx best; exact Or.inl ⟨rfl, by simp⟩
  | cons d rest ih =>
    intro idx best
    by_cases hd : f d < best.2
    · have hstep : scanMinFrom f idx best (d :: rest) =
          scanMinFrom f (idx + 1) (idx, f d) rest := by
        simp [scanMinFrom, hd]
      rcases ih (idx + 1) (idx, f d) with ⟨heq, hall⟩ | ⟨j, hj, h1, h2, h3, h4, h5⟩
      · refine Or.inr ⟨0, by simp, ?_, ?_, ?_, ?_, ?_⟩
        · rw [hstep, heq]; simp
        · rw [hstep, heq]; rfl
        · rw [hstep, heq]; exact hd
        · intro a ha
          rw [hstep, heq]
          rcases List.mem_cons.mp ha with rfl | ha'
          · exact le_refl _
          · exact hall a ha'
        · intro k hk; omega
      · refine Or.inr ⟨j + 1, by simpa using Nat.succ_lt_succ hj, ?_, ?_, ?_, ?_, ?_⟩
        · rw [hstep, h1]; omega
        · rw [hstep, h2]; rfl
        · rw [hstep]; exact lt_trans h3 hd
        · intro a ha
          rw [hstep]
          rcases List.mem_cons.mp ha with rfl | ha'
          · exact le_of_lt h3
          · exact h4 a ha'
        · intro k hk
          rw [hstep]
          match k, hk with
          | 0, _ => exact h3
          | k' + 1, hk' =>
            have := h5 k' (by omega)
            simpa using this
    · have hstep : scanMinFrom f idx best (d :: rest) =
          scanMinFrom f (idx + 1) best rest := by
        simp [scanMinFrom, hd]
      rcases ih (idx + 1) best with ⟨heq, hall⟩ | ⟨j, hj, h1, h2, h3, h4, h5⟩
      · refine Or.inl ⟨by rw [hstep, heq], ?_⟩
        intro a ha
        rcases List.mem_cons.mp ha with rfl | ha'
        · exact le_of_not_lt hd
        · exact hall a ha'
      · refine Or.inr ⟨j + 1, by simpa using Nat.succ_lt_succ hj, ?_, ?_, ?_, ?_, ?_⟩
        · rw [hstep, h1]; omega
        · rw [hstep, h2]; rfl
        · rw [hstep]; exact h3
        · intro a ha
          rw [hstep]
          rcases List.mem_cons.mp ha with rfl | ha'
          · exact le_of_lt (lt_of_lt_of_le h3 (le_of_not_lt hd))
          · exact h4 a ha'
        · intro k hk
          rw [hstep]
          match k, hk with
          | 0, _ => exact lt_of_lt_of_le h3 (le_of_not_lt hd)
          | k' + 1, hk' =>
            have := h5 k' (by omega)
            simpa using this

namespace Main

/-- `#define MAX_TRACKED_DEVICES 50` -/
def MAX_TRACKED_DEVICES : Nat := 50
/-- `#define DEVICE_TIMEOUT 60000` -/
def DEVICE_TIMEOUT : Nat := 60000
/-- `#define NEW_DEVICE_THRESHOLD 300000` -/
def NEW_DEVICE_THRESHOLD : Nat := 300000
/-- `#define COLOR_KNOWN 0x07E0` (green status dot: trusted device) -/
def COLOR_KNOWN : Nat := 0x07E0
/-- `#define COLOR_NEW 0xFFE0` (yellow status dot: recently discovered) -/
def COLOR_NEW : Nat := 0xFFE0
/-- `#define COLOR_UNKNOWN 0xF800` (red status dot: unknown device) -/
def COLOR_UNKNOWN : Nat := 0xF800

/-- `struct BLEDeviceInfo` of `ble-scanner.ino`. -/
structure BLEDeviceInfo where
  mac : String
  name : String
  rssi : Int
  deviceType : String
  manufacturer : String
  isKnown : Bool
  isNew : Bool
  firstSeen : Nat
  lastSeen : Nat
  alertSent : Bool
deriving DecidableEq, Repr, Inhabited

/-- `struct WhitelistEntry`. -/
structure WhitelistEntry where
  mac : String
  name : String
  type : String
deriving DecidableEq, Repr, Inhabited

/-- `isDeviceKnown`: case-insensitive MAC lookup in the whitelist array. -/
def isDeviceKnown (whitelist : List WhitelistEntry) (mac : String) : Bool :=
  whitelist.any (fun e => mac.toUpper = e.mac.toUpper)

/-- The mutation performed on an existing entry by the found-branch of
`updateDeviceList` (lines 730-744): RSSI and lastSeen unconditionally,
name / deviceType / manufacturer only when the stored value is still the
"Unknown" sentinel and the incoming one is not, and `isNew` recomputed
from the elapsed time since `firstSeen`. -/
def updEntry (now : Nat) (name : String) (rssi : Int)
    (deviceType manufacturer : String) (d : BLEDeviceInfo) : BLEDeviceInfo :=
  { d with
    rssi := rssi
    lastSeen := now
    name := if name ≠ "Unknown" ∧ d.name = "Unknown" then name else d.name
    deviceType :=
      if deviceType ≠ "Unknown" ∧ d.deviceType = "Unknown" then deviceType
      else d.deviceType
    manufacturer :=
      if manufacturer ≠ "Unknown" ∧ d.manufacturer = "Unknown" then manufacturer
      else d.manufacturer
    isNew := decide (usub now d.firstSeen < NEW_DEVICE_THRESHOLD) }

/-- The existing-device search loop of `updateDeviceList` (lines 728-748):
returns `some` of the updated list when the MAC is found (first match wins),
`none` when the loop falls through. -/
def updateExisting (now : Nat) (mac name : String) (rssi : Int)
    (deviceType manufacturer : String) :
    List BLEDeviceInfo → Option (List BLEDeviceInfo)
  | [] => none
  | d :: rest =>
    if d.mac = mac then
      some (updEntry now name rssi deviceType manufacturer d :: rest)
    else
      (updateExisting now mac name rssi deviceType manufacturer rest).map
        (fun l => d :: l)

/-- The eviction scan of `updateDeviceList` (lines 753-760):
`removeIndex = 0; weakestRSSI = 0; for i: if (devices[i].rssi < weakestRSSI)
{ weakestRSSI = devices[i].rssi; removeIndex = i; }`. -/
def weakestIndex (devs : List BLEDeviceInfo) : Nat :=
  (scanMinFrom (fun d => d.rssi) 0 (0, 0) devs).1

/-- `updateDeviceList` of `ble-scanner.ino` (lines 724-798).  The returned
Bool records whether the unknown-device alert (serial ALERT, audio alert and
webhook, lines 788-793) fired during this call; the `devices[deviceCount-1]
.alertSent = true` write is folded into the appended entry. -/
def updateDeviceList (whitelist : List WhitelistEntry) (now : Nat)
    (mac name : String) (rssi : Int) (deviceType manufacturer : String)
    (devs : List BLEDeviceInfo) : List BLEDeviceInfo × Bool :=
  match updateExisting now mac name rssi deviceType manufacturer devs with
  | some devs' => (devs', false)
  | none =>
    let devs1 :=
      if MAX_TRACKED_DEVICES ≤ devs.length then devs.eraseIdx (weakestIndex devs)
      else devs
    let newDevice : BLEDeviceInfo :=
      { mac := mac, name := name, rssi := rssi, deviceType := deviceType,
        manufacturer := manufacturer, isKnown := isDeviceKnown whitelist mac,
        isNew := true, firstSeen := now, lastSeen := now, alertSent := false }
    let fired := !newDevice.isKnown && !newDevice.alertSent
    let newDevice2 :=
      if fired then { newDevice with alertSent := true } else newDevice
    (devs1 ++ [newDevice2], fired)

/-- `pruneStaleDevices` (lines 800-818): the index-and-shift while loop is the
standard removal traversal; each entry is examined exactly once, removed when
`currentTime - lastSeen > DEVICE_TIMEOUT` (unsigned arithmetic), kept
otherwise, with the relative order of survivors preserved. -/
def pruneStaleDevices (now : Nat) : List BLEDeviceInfo → List BLEDeviceInfo
  | [] => []
  | d :: rest =>
    if DEVICE_TIMEOUT < usub now d.lastSeen then pruneStaleDevices now rest
    else d :: pruneStaleDevices now rest

/-- The status-colour selection of `drawDeviceRow` (lines 995-1002): green for
whitelisted, else yellow for the cached `isNew` flag, else red. -/
def statusColor (d : BLEDeviceInfo) : Nat :=
  if d.isKnown then COLOR_KNOWN else if d.isNew then COLOR_NEW else COLOR_UNKNOWN

/-- Outcome of the whitelist backing store (SPIFFS `/whitelist.json`) as seen
by `loadWhitelist`: file absent, file present but unreadable or unparsable,
or a parsed document whose `devices` array holds the given entries. -/
inductive WhitelistStore where
  | absent : WhitelistStore
  | openFailed : WhitelistStore
  | unparsable : WhitelistStore
  | parsed : List WhitelistEntry → WhitelistStore

/-- `loadWhitelist` (lines 568-602): `whitelistCount = 0` first; every failure
branch returns early leaving the whitelist empty; a parsed document is copied
entry by entry, stopping at the array bound of 50. -/
def loadWhitelist : WhitelistStore → List WhitelistEntry
  | .absent => []
  | .openFailed => []
  | .unparsable => []
  | .parsed ds => ds.take 50

end Main

namespace Heltec

/-- `#define MAX_TRACKED_DEVICES 30` (Heltec variant) -/
def MAX_TRACKED_DEVICES : Nat := 30
/-- `#define DEVICE_TIMEOUT 120000` (Heltec variant, 2 min) -/
def DEVICE_TIMEOUT : Nat := 120000

/-- `struct BLEDeviceInfo` of `heltec-ble-scanner.ino.cpp`: no trust flags,
no firstSeen, no alert flag. -/
structure BLEDeviceInfo where
  mac : String
  name : String
  rssi : Int
  deviceType : String
  manufacturer : String
  lastSeen : Nat
deriving DecidableEq, Repr, Inhabited

/-- The found-branch mutation of the Heltec `updateDeviceList` (lines 337-343):
RSSI and lastSeen unconditionally, name only as a sentinel fill-in;
deviceType and manufacturer are never touched on re-observation. -/
def updEntry (now : Nat) (name : String) (rssi : Int)
    (d : BLEDeviceInfo) : BLEDeviceInfo :=
  { d with
    rssi := rssi
    lastSeen := now
    name := if name ≠ "Unknown" ∧ d.name = "Unknown" then name else d.name }

/-- The existing-device search loop of the Heltec `updateDeviceList`. -/
def updateExisting (now : Nat) (mac name : String) (rssi : Int) :
    List BLEDeviceInfo → Option (List BLEDeviceInfo)
  | [] => none
  | d :: rest =>
    if d.mac = mac then some (updEntry now name rssi d :: rest)
    else (updateExisting now mac name rssi rest).map (fun l => d :: l)

/-- The eviction scan of the Heltec `updateDeviceList` (lines 349-355):
`oldestIdx = 0; for i = 1..: if (devices[i].lastSeen <
devices[oldestIdx].lastSeen) oldestIdx = i;`. -/
def oldestIndex : List BLEDeviceInfo → Nat
  | [] => 0
  | d :: rest => (scanMinFrom (fun x => x.lastSeen) 1 (0, d.lastSeen) rest).1

/-- `updateDeviceList` of the Heltec variant (lines 331-372). -/
def updateDeviceList (now : Nat) (mac name : String) (rssi : Int)
    (deviceType manufacturer : String)
    (devs : List BLEDeviceInfo) : List BLEDeviceInfo :=
  match updateExisting now mac name rssi devs with
  | some devs' => devs'
  | none =>
    let devs1 :=
      if MAX_TRACKED_DEVICES ≤ devs.length then devs.eraseIdx (oldestIndex devs)
      else devs
    devs1 ++ [{ mac := mac, name := name, rssi := rssi,
                deviceType := deviceType, manufacturer := manufacturer,
                lastSeen := now }]

/-- Heltec `pruneStaleDevices` (lines 374-388); timeout 120000 ms. -/
def pruneStaleDevices (now : Nat) : List BLEDeviceInfo → List BLEDeviceInfo
  | [] => []
  | d :: rest =>
    if DEVICE_TIMEOUT < usub now d.lastSeen then pruneStaleDevices now rest
    else d :: pruneStaleDevices now rest

end Heltec

/-- Observable side effects of the scan-completion branch of `loop()`, in the
order the statements execute.  Constructors exist for every collaborator the
specification names, whether or not the code notifies it. -/
inductive LoopEvent where
  | recordLastScanTime : LoopEvent
  | pruneStale : LoopEvent
  | drawDisplay : LoopEvent
  | serialLog : LoopEvent
  | networkPost : LoopEvent
  | sdLog : LoopEvent
  | alertDispatch : LoopEvent
deriving DecidableEq, Repr

namespace Main

/-- The loop-relevant globals of `ble-scanner.ino`. -/
structure LoopState where
  scanInProgress : Bool
  lastScanTime : Nat
  devices : List BLEDeviceInfo
deriving Repr

/-- The scan-complete branch of `loop()` (lines 299-314), entered when
`scanInProgress && millis() - scanStartTime >= SCAN_DURATION*1000 + 500`:
`scanInProgress = false; lastScanTime = millis(); pruneStaleDevices();
drawDisplay(); Serial.printf(...)`.  The server POST is disabled in this
variant (comment at lines 306-308).  Returns the new state and the ordered
trace of side effects. -/
def loopScanComplete (now : Nat) (s : LoopState) : LoopState × List LoopEvent :=
  let s1 : LoopState :=
    { s with scanInProgress := false, lastScanTime := now }
  let s2 : LoopState := { s1 with devices := pruneStaleDevices now s1.devices }
  (s2, [LoopEvent.recordLastScanTime, LoopEvent.pruneStale,
        LoopEvent.drawDisplay, LoopEvent.serialLog])

end Main

namespace Heltec

/-- The loop-relevant globals of the Heltec variant. -/
structure LoopState where
  scanInProgress : Bool
  lastScanTime : Nat
  wifiConnected : Bool
  devices : List BLEDeviceInfo
deriving Repr

/-- The scan-complete branch of the Heltec `loop()` (lines 206-224):
`scanInProgress = false; lastScanTime = millis(); pruneStaleDevices();
updateDisplay(); if (wifiConnected && deviceCount > 0) postLogsToServer();
Serial.printf(...)`. -/
def loopScanComplete (now : Nat) (s : LoopState) : LoopState × List LoopEvent :=
  let s1 : LoopState :=
    { s with scanInProgress := false, lastScanTime := now }
  let pruned := pruneStaleDevices now s1.devices
  let s2 : LoopState := { s1 with devices := pruned }
  (s2, [LoopEvent.recordLastScanTime, LoopEvent.pruneStale,
        LoopEvent.drawDisplay] ++
       (if s2.wifiConnected && decide (0 < pruned.length)
        then [LoopEvent.networkPost] else []) ++
       [LoopEvent.serialLog])

end Heltec

/-- Advertisement record as consumed by the classification engine: optional
advertised name (`haveName`/`getName`), RSSI, optional manufacturer-data byte
string (each entry one byte of `getManufacturerData`), optional service UUID
in its textual rendering (`getServiceUUID().toString()`). -/
structure AdvRecord where
  name : Option String
  rssi : Int
  manufacturerData : Option (List Nat)
  serviceUUID : Option String
deriving Repr

/-- `uint16_t mfgId = (uint8_t)mfgData[0] | ((uint8_t)mfgData[1] << 8)`:
little-endian 16-bit manufacturer identifier from the first two bytes. -/
def mfgIdOf (md : List Nat) : Nat :=
  (md.getD 0 0 % 256) ||| ((md.getD 1 0 % 256) <<< 8)

/-- `uuidStr.indexOf(pat) >= 0` / `name.indexOf(pat) >= 0`: substring test. -/
def strContains (s pat : String) : Bool :=
  decide (1 < (s.splitOn pat).length)

namespace Main

/-- The name-pattern fallback of `detectDeviceType` (lines 871-890):
case-insensitive substring matching, first match wins. -/
def detectTypeByName (dev : AdvRecord) : String :=
  let name :=
    (match dev.name with
     | some n => n
     | none => "").toLower
  if strContains name "airpods" then "Audio"
  else if strContains name "galaxy buds" then "Audio"
  else if strContains name "beats" then "Audio"
  else if strContains name "jbl" then "Audio"
  else if strContains name "bose" then "Audio"
  else if strContains name "fitbit" then "Wearable"
  else if strContains name "watch" then "Wearable"
  else if strContains name "band" then "Wearable"
  else if strContains name "beacon" then "Beacon"
  else if strContains name "tile" then "Tracker"
  else if strContains name "airtag" then "Tracker"
  else if strContains name "iphone" then "Phone"
  else if strContains name "galaxy" then "Phone"
  else if strContains name "pixel" then "Phone"
  else "Unknown"

/-- The service-UUID rule of `detectDeviceType` (lines 859-869), falling back
to the name patterns when no UUID rule matches. -/
def detectTypeByService (dev : AdvRecord) : String :=
  match dev.serviceUUID with
  | some uuidStr =>
    if strContains uuidStr "180d" then "Wearable"
    else if strContains uuidStr "180f" then "BLE Device"
    else if strContains uuidStr "1812" then "HID"
    else if strContains uuidStr "1803" then "Beacon"
    else if strContains uuidStr "fe9f" then "Phone"
    else detectTypeByName dev
  | none => detectTypeByName dev

/-- `detectDeviceType` (lines 824-891): manufacturer data first (with the
Apple sub-type byte), then service UUIDs, then name patterns, else the
"Unknown" sentinel. -/
def detectDeviceType (dev : AdvRecord) : String :=
  match dev.manufacturerData with
  | some md =>
    if 2 ≤ md.length then
      let mfgId := mfgIdOf md
      if mfgId = 0x004C then
        if 2 < md.length then
          let t := md.getD 2 0 % 256
          if t = 0x02 then "iBeacon"
          else if t = 0x05 then "AirDrop"
          else if t = 0x07 then "AirPods"
          else if t = 0x09 then "AirPlay"
          else if t = 0x10 then "AirTag"
          else "Apple"
        else "Apple"
      else if mfgId = 0x0075 then "Samsung"
      else if mfgId = 0x00E0 then "Google"
      else if mfgId = 0x0006 then "Microsoft"
      else if mfgId = 0x0477 then "Tile"
      else detectTypeByService dev
    else detectTypeByService dev
  | none => detectTypeByService dev

/-- `detectManufacturer` (lines 893-915): a pure manufacturer-data lookup;
service UUIDs and names are never consulted. -/
def detectManufacturer (dev : AdvRecord) : String :=
  match dev.manufacturerData with
  | some md =>
    if 2 ≤ md.length then
      let mfgId := mfgIdOf md
      if mfgId = 0x004C then "Apple"
      else if mfgId = 0x0075 then "Samsung"
      else if mfgId = 0x00E0 then "Google"
      else if mfgId = 0x0006 then "Microsoft"
      else if mfgId = 0x0477 then "Tile"
      else if mfgId = 0x0087 then "Garmin"
      else if mfgId = 0x0157 then "Huawei"
      else if mfgId = 0x0310 then "Xiaomi"
      else if mfgId = 0x0059 then "Nordic"
      else if mfgId = 0x004F then "Sony"
      else "Unknown"
    else "Unknown"
  | none => "Unknown"

end Main

/-- One `observe` call (one advertisement delivered to `updateDeviceList`),
with the `millis()` value current when it is processed. -/
structure ObsCall where
  now : Nat
  mac : String
  name : String
  rssi : Int
  deviceType : String
  manufacturer : String

namespace Main

/-- A sequence of `observe` calls run against an initially empty registry,
with a fixed whitelist. -/
def runObserves (whitelist : List WhitelistEntry) (calls : List ObsCall) :
    List BLEDeviceInfo :=
  calls.foldl
    (fun s c =>
      (updateDeviceList whitelist c.now c.mac c.name c.rssi c.deviceType
        c.manufacturer s).1) []

/-- A registry entry exactly as created by `updateDeviceList` on first sight of
`m` with RSSI `r` at `millis() = 0`, empty whitelist (so the unknown-device
alert fired and set `alertSent`). -/
def mkDev (m : String) (r : Int) : BLEDeviceInfo :=
  { mac := m, name := "Unknown", rssi := r, deviceType := "Unknown",
    manufacturer := "Unknown", isKnown := false, isNew := true,
    firstSeen := 0, lastSeen := 0, alertSent := true }

/-- 48 distinct filler MAC keys. -/
def fillerMacs : List String :=
  ["AA", "AB", "AC", "AD", "AE", "AF", "AG", "AH", "AI", "AJ", "AK", "AL",
   "AM", "AN", "AO", "AP", "AQ", "AR", "AS", "AT", "AU", "AV", "AW", "AX",
   "AY", "AZ", "BA", "BB", "BC", "BD", "BE", "BF", "BG", "BH", "BI", "BJ",
   "BK", "BL", "BM", "BN", "BO", "BP", "BQ", "BR", "BS", "BT", "BU", "BV"]

/-- A registry at full capacity (50 entries, as after 50 first-sightings at
`t = 0`): entry "D0" has RSSI 10, entry "D1" has RSSI 3 (the minimum), and 48
filler entries have RSSI 5.  All RSSI values are non-negative, so the eviction
scan's `weakestRSSI = 0` initial value is never beaten. -/
def devsAtCap : List BLEDeviceInfo :=
  mkDev "D0" 10 :: mkDev "D1" 3 :: fillerMacs.map (fun m => mkDev m 5)

/-- The registry entry created by observing address "AA:BB:CC:DD:EE:FF"
(RSSI −40, no name) at `millis() = 0` with an empty whitelist. -/
def e0 : BLEDeviceInfo :=
  { mac := "AA:BB:CC:DD:EE:FF", name := "Unknown", rssi := -40,
    deviceType := "Unknown", manufacturer := "Unknown", isKnown := false,
    isNew := true, firstSeen := 0, lastSeen := 0, alertSent := true }

end Main

namespace Heltec

/-- A sample Heltec registry entry. -/
def sampleDev : BLEDeviceInfo :=
  { mac := "H0", name := "Unknown", rssi := -70, deviceType := "Unknown",
    manufacturer := "Unknown", lastSeen := 5 }

/-- A sequence of `observe` calls run against an initially empty registry
(Heltec variant; no whitelist). -/
def runObserves (calls : List ObsCall) : List BLEDeviceInfo :=
  calls.foldl
    (fun s c =>
      updateDeviceList c.now c.mac c.name c.rssi c.deviceType
        c.manufacturer s) []

end Heltec

theorem getD_eq_get {α : Type} {l : List α} {n : Nat} (h : n < l.length)
    (dflt : α) : l.getD n dflt = l.get ⟨n, h⟩ := by
  simp [List.getD_eq_getElem?_getD, List.getElem?_eq_getElem h,
    List.get_eq_getElem]

theorem map_eraseIdx_comm {α β : Type} (f : α → β) :
    ∀ (l : List α) (i : Nat), (l.eraseIdx i).map f = (l.map f).eraseIdx i := by
  intro l
  induction l with
  | nil => intro i; simp
  | cons d rest ih =>
    intro i
    cases i with
    | zero => simp [List.eraseIdx]
    | succ n => simp [List.eraseIdx, ih n]

namespace Main

theorem updateExisting_eq_none_iff (now : Nat) (mac name : String)
    (rssi : Int) (ty mfr : String) :
    ∀ devs : List BLEDeviceInfo,
      updateExisting now mac name rssi ty mfr devs = none ↔
        ∀ d ∈ devs, d.mac ≠ mac := by
  intro devs
  induction devs with
  | nil => simp [updateExisting]
  | cons d rest ih =>
    by_cases h : d.mac = mac
    · simp [updateExisting, h]
    · simp [updateExisting, h, ih]

theorem updateExisting_spec (now : Nat) (mac name : String) (rssi : Int)
    (ty mfr : String) :
    ∀ (devs res : List BLEDeviceInfo),
      updateExisting now mac name rssi ty mfr devs = some res →
      ∃ l1 d l2, devs = l1 ++ d :: l2 ∧ (∀ d' ∈ l1, d'.mac ≠ mac) ∧
        d.mac = mac ∧ res = l1 ++ updEntry now name rssi ty mfr d :: l2 := by
  intro devs
  induction devs with
  | nil => intro res h; simp [updateExisting] at h
  | cons d rest ih =>
    intro res h
    by_cases hm : d.mac = mac
    · refine ⟨[], d, rest, by simp, by simp, hm, ?_⟩
      simp [updateExisting, hm] at h
      simp [← h]
    · simp only [updateExisting, hm, if_neg, ite_false, Option.map_eq_some'] at h
      obtain ⟨l, hl, hres⟩ := h
      obtain ⟨l1, d', l2, hsplit, hl1, hd', hres'⟩ := ih l hl
      refine ⟨d :: l1, d', l2, by simp [hsplit], ?_, hd', ?_⟩
      · intro x hx
        rcases List.mem_cons.mp hx with rfl | hx'
        · exact hm
        · exact hl1 x hx'
      · simp [← hres, hres']

theorem updEntry_mac (now : Nat) (name : String) (rssi : Int)
    (ty mfr : String) (d : BLEDeviceInfo) :
    (updEntry now name rssi ty mfr d).mac = d.mac := rfl

theorem updateExisting_length (now : Nat) (mac name : String) (rssi : Int)
    (ty mfr : String) (devs res : List BLEDeviceInfo)
    (h : updateExisting now mac name rssi ty mfr devs = some res) :
    res.length = devs.length := by
  obtain ⟨l1, d, l2, hsplit, -, -, hres⟩ :=
    updateExisting_spec now mac name rssi ty mfr devs res h
  subst hsplit; simp [hres]

theorem updateExisting_map_mac (now : Nat) (mac name : String) (rssi : Int)
    (ty mfr : String) (devs res : List BLEDeviceInfo)
    (h : updateExisting now mac name rssi ty mfr devs = some res) :
    res.map (fun d => d.mac) = devs.map (fun d => d.mac) := by
  obtain ⟨l1, d, l2, hsplit, -, -, hres⟩ :=
    updateExisting_spec now mac name rssi ty mfr devs res h
  subst hsplit; simp [hres, updEntry_mac]

theorem weakestIndex_lt (devs : List BLEDeviceInfo) (h : devs ≠ []) :
    weakestIndex devs < devs.length := by
  unfold weakestIndex
  rcases scanMinFrom_char (fun d : BLEDeviceInfo => d.rssi) devs 0 (0, 0) with
    ⟨heq, -⟩ | ⟨j, hj, h1, -⟩
  · rw [heq]; exact List.length_pos.mpr h
  · rw [h1]; omega

theorem pruneStaleDevices_sublist (now : Nat) :
    ∀ devs : List BLEDeviceInfo,
      List.Sublist (pruneStaleDevices now devs) devs := by
  intro devs
  induction devs with
  | nil => simp [pruneStaleDevices]
  | cons d rest ih =>
    unfold pruneStaleDevices
    by_cases h : DEVICE_TIMEOUT < usub now d.lastSeen
    · simp only [h, if_true]
      exact List.Sublist.cons d ih
    · simp only [h, if_false, ite_false]
      exact List.Sublist.cons₂ d ih

theorem pruneStaleDevices_eq_filter (now : Nat) (hn : now < MOD32) :
    ∀ devs : List BLEDeviceInfo, (∀ d ∈ devs, d.lastSeen ≤ now) →
      pruneStaleDevices now devs =
        devs.filter (fun d => decide (now - d.lastSeen ≤ DEVICE_TIMEOUT)) := by
  intro devs
  induction devs with
  | nil => intro _; rfl
  | cons d rest ih =>
    intro h
    have hd : d.lastSeen ≤ now := h d (List.mem_cons_self d rest)
    have hrest := ih (fun x hx => h x (List.mem_cons_of_mem d hx))
    unfold pruneStaleDevices
    rw [usub_eq_sub hd hn]
    by_cases hc : DEVICE_TIMEOUT < now - d.lastSeen
    · have hnot : ¬ (now - d.lastSeen ≤ DEVICE_TIMEOUT) := by omega
      simp [hc, hrest, List.filter_cons, hnot]
      rw [if_neg (by omega)]
    · have hyes : now - d.lastSeen ≤ DEVICE_TIMEOUT := by omega
      simp [hc, hrest, List.filter_cons, hyes]
      rw [if_pos (by omega)]

theorem updateDeviceList_length_le (whitelist : List WhitelistEntry)
    (now : Nat) (mac name : String) (rssi : Int) (ty mfr : String)
    (devs : List BLEDeviceInfo) (h : devs.length ≤ MAX_TRACKED_DEVICES) :
    (updateDeviceList whitelist now mac name rssi ty mfr devs).1.length ≤
      MAX_TRACKED_DEVICES := by
  unfold updateDeviceList
  cases hup : updateExisting now mac name rssi ty mfr devs with
  | some res =>
    simpa [updateExisting_length now mac name rssi ty mfr devs res hup] using h
  | none =>
    by_cases hcap : MAX_TRACKED_DEVICES ≤ devs.length
    · have hne : devs ≠ [] := by
        intro hnil
        subst hnil
        simp [MAX_TRACKED_DEVICES] at hcap
      have hlt := weakestIndex_lt devs hne
      simp [hcap, List.length_append, List.length_eraseIdx, hlt]
      omega
    · simp [hcap, List.length_append]
      omega

end Main

namespace Heltec

theorem updateExisting_eq_none_iff_h (now : Nat) (mac name : String)
    (rssi : Int) :
    ∀ devs : List BLEDeviceInfo,
      updateExisting now mac name rssi devs = none ↔
        ∀ d ∈ devs, d.mac ≠ mac := by
  intro devs
  induction devs with
  | nil => simp [updateExisting]
  | cons d rest ih =>
    by_cases h : d.mac = mac
    · simp [updateExisting, h]
    · simp [updateExisting, h, ih]

theorem updateExisting_spec_h (now : Nat) (mac name : String) (rssi : Int) :
    ∀ (devs res : List BLEDeviceInfo),
      updateExisting now mac name rssi devs = some res →
      ∃ l1 d l2, devs = l1 ++ d :: l2 ∧ (∀ d' ∈ l1, d'.mac ≠ mac) ∧
        d.mac = mac ∧ res = l1 ++ updEntry now name rssi d :: l2 := by
  intro devs
  induction devs with
  | nil => intro res h; simp [updateExisting] at h
  | cons d rest ih =>
    intro res h
    by_cases hm : d.mac = mac
    · refine ⟨[], d, rest, by simp, by simp, hm, ?_⟩
      simp [updateExisting, hm] at h
      simp [← h]
    · simp only [updateExisting, hm, if_neg, ite_false, Option.map_eq_some'] at h
      obtain ⟨l, hl, hres⟩ := h
      obtain ⟨l1, d', l2, hsplit, hl1, hd', hres'⟩ := ih l hl
      refine ⟨d :: l1, d', l2, by simp [hsplit], ?_, hd', ?_⟩
      · intro x hx
        rcases List.mem_cons.mp hx with rfl | hx'
        · exact hm
        · exact hl1 x hx'
      · simp [← hres, hres']

theorem updEntry_mac_h (now : Nat) (name : String) (rssi : Int)
    (d : BLEDeviceInfo) : (updEntry now name rssi d).mac = d.mac := rfl

theorem updateExisting_length_h (now : Nat) (mac name : String) (rssi : Int)
    (devs res : List BLEDeviceInfo)
    (h : updateExisting now mac name rssi devs = some res) :
    res.length = devs.length := by
  obtain ⟨l1, d, l2, hsplit, -, -, hres⟩ :=
    updateExisting_spec_h now mac name rssi devs res h
  subst hsplit; simp [hres]

theorem updateExisting_map_mac_h (now : Nat) (mac name : String) (rssi : Int)
    (devs res : List BLEDeviceInfo)
    (h : updateExisting now mac name rssi devs = some res) :
    res.map (fun d => d.mac) = devs.map (fun d => d.mac) := by
  obtain ⟨l1, d, l2, hsplit, -, -, hres⟩ :=
    updateExisting_spec_h now mac name rssi devs res h
  subst hsplit; simp [hres, updEntry_mac_h]

theorem oldestIndex_lt (devs : List BLEDeviceInfo) (h : devs ≠ []) :
    oldestIndex devs < devs.length := by
  match devs, h with
  | d :: rest, _ =>
    show (scanMinFrom (fun x : BLEDeviceInfo => x.lastSeen) 1
        (0, d.lastSeen) rest).1 < (d :: rest).length
    rcases scanMinFrom_char (fun x : BLEDeviceInfo => x.lastSeen) rest 1
        (0, d.lastSeen) with ⟨heq, -⟩ | ⟨j, hj, h1, -⟩
    · rw [heq]; simp
    · rw [h1]; simp; omega

theorem pruneStaleDevices_sublist_h (now : Nat) :
    ∀ devs : List BLEDeviceInfo,
      List.Sublist (pruneStaleDevices now devs) devs := by
  intro devs
  induction devs with
  | nil => simp [pruneStaleDevices]
  | cons d rest ih =>
    unfold pruneStaleDevices
    by_cases h : DEVICE_TIMEOUT < usub now d.lastSeen
    · simp only [h, if_true]
      exact List.Sublist.cons d ih
    · simp only [h, if_false, ite_false]
      exact List.Sublist.cons₂ d ih

theorem pruneStaleDevices_eq_filter_h (now : Nat) (hn : now < MOD32) :
    ∀ devs : List BLEDeviceInfo, (∀ d ∈ devs, d.lastSeen ≤ now) →
      pruneStaleDevices now devs =
        devs.filter (fun d => decide (now - d.lastSeen ≤ DEVICE_TIMEOUT)) := by
  intro devs
  induction devs with
  | nil => intro _; rfl
  | cons d rest ih =>
    intro h
    have hd : d.lastSeen ≤ now := h d (List.mem_cons_self d rest)
    have hrest := ih (fun x hx => h x (List.mem_cons_of_mem d hx))
    unfold pruneStaleDevices
    rw [usub_eq_sub hd hn]
    by_cases hc : DEVICE_TIMEOUT < now - d.lastSeen
    · have hnot : ¬ (now - d.lastSeen ≤ DEVICE_TIMEOUT) := by omega
      simp [hc, hrest, List.filter_cons, hnot]
      rw [if_neg (by omega)]
    · have hyes : now - d.lastSeen ≤ DEVICE_TIMEOUT := by omega
      simp [hc, hrest, List.filter_cons, hyes]
      rw [if_pos (by omega)]

theorem updateDeviceList_length_le_h (now : Nat) (mac name : String)
    (rssi : Int) (ty mfr : String) (devs : List BLEDeviceInfo)
    (h : devs.length ≤ MAX_TRACKED_DEVICES) :
    (updateDeviceList now mac name rssi ty mfr devs).length ≤
      MAX_TRACKED_DEVICES := by
  unfold updateDeviceList
  cases hup : updateExisting now mac name rssi devs with
  | some res =>
    simpa [updateExisting_length_h now mac name rssi devs res hup] using h
  | none =>
    by_cases hcap : MAX_TRACKED_DEVICES ≤ devs.length
    · have hne : devs ≠ [] := by
        intro hnil
        subst hnil
        simp [MAX_TRACKED_DEVICES] at hcap
      have hlt := oldestIndex_lt devs hne
      simp [hcap, List.length_append, List.length_eraseIdx, hlt]
      omega
    · simp [hcap, List.length_append]
      omega

end Heltec

namespace Main

theorem runObserves_invariant (whitelist : List WhitelistEntry) :
    ∀ (calls : List ObsCall) (s : List BLEDeviceInfo),
      s.length ≤ MAX_TRACKED_DEVICES →
      (calls.foldl
        (fun s c =>
          (updateDeviceList whitelist c.now c.mac c.name c.rssi c.deviceType
            c.manufacturer s).1) s).length ≤ MAX_TRACKED_DEVICES := by
  intro calls
  induction calls with
  | nil => intro s h; simpa using h
  | cons c rest ih =>
    intro s h
    simp only [List.foldl_cons]
    exact ih _ (updateDeviceList_length_le whitelist c.now c.mac c.name c.rssi
      c.deviceType c.manufacturer s h)

end Main

namespace Heltec

theorem runObserves_invariant_h :
    ∀ (calls : List ObsCall) (s : List BLEDeviceInfo),
      s.length ≤ MAX_TRACKED_DEVICES →
      (calls.foldl
        (fun s c =>
          updateDeviceList c.now c.mac c.name c.rssi c.deviceType
            c.manufacturer s) s).length ≤ MAX_TRACKED_DEVICES := by
  intro calls
  induction calls with
  | nil => intro s h; simpa using h
  | cons c rest ih =>
    intro s h
    simp only [List.foldl_cons]
    exact ih _ (updateDeviceList_length_le_h c.now c.mac c.name c.rssi
      c.deviceType c.manufacturer s h)

end Heltec

/-- C1: the number of tracked devices never exceeds the configured capacity.
A single `updateDeviceList` call preserves `deviceCount ≤ MAX_TRACKED_DEVICES`
in both firmware variants (when at capacity, one victim is evicted before
the new entry is appended), and hence every sequence of observe calls run
from the empty registry stays within capacity. -/
theorem c1_registry_size_bound (whitelist : List Main.WhitelistEntry)
    (now : Nat) (mac name : String) (rssi : Int) (ty mfr : String)
    (devs : List Main.BLEDeviceInfo) (hdevs : List Heltec.BLEDeviceInfo)
    (calls hcalls : List ObsCall)
    (h1 : devs.length ≤ Main.MAX_TRACKED_DEVICES)
    (h2 : hdevs.length ≤ Heltec.MAX_TRACKED_DEVICES) :
    (Main.updateDeviceList whitelist now mac name rssi ty mfr devs).1.length ≤
      Main.MAX_TRACKED_DEVICES ∧
    (Heltec.updateDeviceList now mac name rssi ty mfr hdevs).length ≤
      Heltec.MAX_TRACKED_DEVICES ∧
    (Main.runObserves whitelist calls).length ≤ Main.MAX_TRACKED_DEVICES ∧
    (Heltec.runObserves hcalls).length ≤ Heltec.MAX_TRACKED_DEVICES := by
  refine ⟨Main.updateDeviceList_length_le whitelist now mac name rssi ty mfr
    devs h1, Heltec.updateDeviceList_length_le_h now mac name rssi ty mfr
    hdevs h2, ?_, ?_⟩
  · exact Main.runObserves_invariant whitelist calls [] (by simp)
  · exact Heltec.runObserves_invariant_h hcalls [] (by simp)

/-- Witness for C1 at concrete inputs. -/
theorem c1_registry_size_bound_witness :
    (Main.updateDeviceList [] 0 "D0" "Unknown" (-40) "Unknown" "Unknown"
      []).1.length ≤ Main.MAX_TRACKED_DEVICES ∧
    (Heltec.updateDeviceList 0 "D0" "Unknown" (-40) "Unknown" "Unknown"
      []).length ≤ Heltec.MAX_TRACKED_DEVICES ∧
    (Main.runObserves []
      [⟨0, "D0", "Unknown", -40, "Unknown", "Unknown"⟩]).length ≤
      Main.MAX_TRACKED_DEVICES ∧
    (Heltec.runObserves
      [⟨0, "D0", "Unknown", -40, "Unknown", "Unknown"⟩]).length ≤
      Heltec.MAX_TRACKED_DEVICES :=
  c1_registry_size_bound [] 0 "D0" "Unknown" (-40) "Unknown" "Unknown" [] []
    [⟨0, "D0", "Unknown", -40, "Unknown", "Unknown"⟩]
    [⟨0, "D0", "Unknown", -40, "Unknown", "Unknown"⟩]
    (by decide) (by decide)

/-- C4: `pruneStaleDevices(now)` removes exactly the entries whose inactivity
`now - last_seen` strictly exceeds the device timeout and no others, in both
variants.  The registry after a sweep is the filter of the registry by
`now - last_seen ≤ DEVICE_TIMEOUT`, so each entry is examined exactly once
and survives if and only if it is within the timeout.  The hypotheses state
that stored timestamps are earlier than the current `millis()` value and
the clock has not wrapped, so unsigned subtraction is true subtraction. -/
theorem c4_sweep_exact (now : Nat) (devs : List Main.BLEDeviceInfo)
    (hdevs : List Heltec.BLEDeviceInfo) (hn : now < MOD32)
    (h1 : ∀ d ∈ devs, d.lastSeen ≤ now)
    (h2 : ∀ d ∈ hdevs, d.lastSeen ≤ now) :
    (Main.pruneStaleDevices now devs =
      devs.filter (fun d => decide (now - d.lastSeen ≤ Main.DEVICE_TIMEOUT))) ∧
    (∀ d, d ∈ Main.pruneStaleDevices now devs ↔
      d ∈ devs ∧ now - d.lastSeen ≤ Main.DEVICE_TIMEOUT) ∧
    (Heltec.pruneStaleDevices now hdevs =
      hdevs.filter
        (fun d => decide (now - d.lastSeen ≤ Heltec.DEVICE_TIMEOUT))) ∧
    (∀ d, d ∈ Heltec.pruneStaleDevices now hdevs ↔
      d ∈ hdevs ∧ now - d.lastSeen ≤ Heltec.DEVICE_TIMEOUT) := by
  have e1 := Main.pruneStaleDevices_eq_filter now hn devs h1
  have e2 := Heltec.pruneStaleDevices_eq_filter_h now hn hdevs h2
  refine ⟨e1, ?_, e2, ?_⟩
  · intro d
    rw [e1, List.mem_filter]
    simp
  · intro d
    rw [e2, List.mem_filter]
    simp

/-- Witness for C4: two entries at `now = 70000`, one stale (last seen at 0,
inactivity 70000 > 60000), one fresh (last seen at 65000). -/
theorem c4_sweep_exact_witness :
    (Main.pruneStaleDevices 70000 [Main.mkDev "D0" 10,
        { Main.mkDev "D1" 3 with lastSeen := 65000 }] =
      [Main.mkDev "D0" 10,
        { Main.mkDev "D1" 3 with lastSeen := 65000 }].filter
        (fun d => decide (70000 - d.lastSeen ≤ Main.DEVICE_TIMEOUT))) ∧
    (∀ d, d ∈ Main.pruneStaleDevices 70000 [Main.mkDev "D0" 10,
        { Main.mkDev "D1" 3 with lastSeen := 65000 }] ↔
      d ∈ [Main.mkDev "D0" 10,
        { Main.mkDev "D1" 3 with lastSeen := 65000 }] ∧
        70000 - d.lastSeen ≤ Main.DEVICE_TIMEOUT) ∧
    (Heltec.pruneStaleDevices 70000 ([] : List Heltec.BLEDeviceInfo) =
      ([] : List Heltec.BLEDeviceInfo).filter
        (fun d => decide (70000 - d.lastSeen ≤ Heltec.DEVICE_TIMEOUT))) ∧
    (∀ d, d ∈ Heltec.pruneStaleDevices 70000 ([] : List Heltec.BLEDeviceInfo) ↔
      d ∈ ([] : List Heltec.BLEDeviceInfo) ∧
        70000 - d.lastSeen ≤ Heltec.DEVICE_TIMEOUT) :=
  c4_sweep_exact 70000
    [Main.mkDev "D0" 10, { Main.mkDev "D1" 3 with lastSeen := 65000 }] []
    (by decide) (by decide) (by decide)

/-- C9: when the whitelist backing store is absent, unreadable or unparsable,
`loadWhitelist` yields an empty whitelist (count zero) and returns normally
(it is a total function), so `isDeviceKnown` reports every address as not
known. -/
theorem c9_whitelist_fallback (store : Main.WhitelistStore)
    (h : store = Main.WhitelistStore.absent ∨
         store = Main.WhitelistStore.openFailed ∨
         store = Main.WhitelistStore.unparsable) :
    Main.loadWhitelist store = [] ∧
    (Main.loadWhitelist store).length = 0 ∧
    ∀ mac, Main.isDeviceKnown (Main.loadWhitelist store) mac = false := by
  rcases h with rfl | rfl | rfl <;> exact ⟨rfl, rfl, fun _ => rfl⟩

/-- Witness for C9 at the absent store. -/
theorem c9_whitelist_fallback_witness :
    Main.loadWhitelist Main.WhitelistStore.absent = [] ∧
    (Main.loadWhitelist Main.WhitelistStore.absent).length = 0 ∧
    ∀ mac, Main.isDeviceKnown
      (Main.loadWhitelist Main.WhitelistStore.absent) mac = false :=
  c9_whitelist_fallback Main.WhitelistStore.absent (Or.inl rfl)

/-- C5: re-observing an address that already has an entry leaves the registry
size unchanged and rewrites exactly the first matching entry: RSSI and
last-seen unconditionally; name, device type and manufacturer only when the
stored value is still the "Unknown" sentinel and the incoming value is not
(so a non-sentinel stored value is never replaced, and a sentinel incoming
value never overwrites anything).  The key and first-seen timestamp are
untouched, and all other entries are untouched.  In the Heltec variant the
device type and manufacturer are never rewritten at all, which satisfies the
same monotonicity. -/
theorem c5_reobserve_merge :
    (∀ (whitelist : List Main.WhitelistEntry) (now : Nat) (mac name : String)
      (rssi : Int) (ty mfr : String) (devs : List Main.BLEDeviceInfo),
      mac ∈ devs.map (fun d => d.mac) →
      ∃ l1 d l2, devs = l1 ++ d :: l2 ∧ (∀ d' ∈ l1, d'.mac ≠ mac) ∧
        d.mac = mac ∧
        (Main.updateDeviceList whitelist now mac name rssi ty mfr devs).1 =
          l1 ++ Main.updEntry now name rssi ty mfr d :: l2 ∧
        (Main.updateDeviceList whitelist now mac name rssi ty mfr
          devs).1.length = devs.length ∧
        (Main.updEntry now name rssi ty mfr d).rssi = rssi ∧
        (Main.updEntry now name rssi ty mfr d).lastSeen = now ∧
        (Main.updEntry now name rssi ty mfr d).mac = d.mac ∧
        (Main.updEntry now name rssi ty mfr d).firstSeen = d.firstSeen ∧
        (d.name ≠ "Unknown" →
          (Main.updEntry now name rssi ty mfr d).name = d.name) ∧
        (name = "Unknown" →
          (Main.updEntry now name rssi ty mfr d).name = d.name) ∧
        (d.name = "Unknown" → name ≠ "Unknown" →
          (Main.updEntry now name rssi ty mfr d).name = name) ∧
        (d.deviceType ≠ "Unknown" →
          (Main.updEntry now name rssi ty mfr d).deviceType = d.deviceType) ∧
        (ty = "Unknown" →
          (Main.updEntry now name rssi ty mfr d).deviceType = d.deviceType) ∧
        (d.deviceType = "Unknown" → ty ≠ "Unknown" →
          (Main.updEntry now name rssi ty mfr d).deviceType = ty) ∧
        (d.manufacturer ≠ "Unknown" →
          (Main.updEntry now name rssi ty mfr d).manufacturer =
            d.manufacturer) ∧
        (mfr = "Unknown" →
          (Main.updEntry now name rssi ty mfr d).manufacturer =
            d.manufacturer) ∧
        (d.manufacturer = "Unknown" → mfr ≠ "Unknown" →
          (Main.updEntry now name rssi ty mfr d).manufacturer = mfr)) ∧
    (∀ (now : Nat) (mac name : String) (rssi : Int) (ty mfr : String)
      (hdevs : List Heltec.BLEDeviceInfo),
      mac ∈ hdevs.map (fun d => d.mac) →
      ∃ l1 d l2, hdevs = l1 ++ d :: l2 ∧ (∀ d' ∈ l1, d'.mac ≠ mac) ∧
        d.mac = mac ∧
        Heltec.updateDeviceList now mac name rssi ty mfr hdevs =
          l1 ++ Heltec.updEntry now name rssi d :: l2 ∧
        (Heltec.updateDeviceList now mac name rssi ty mfr hdevs).length =
          hdevs.length ∧
        (Heltec.updEntry now name rssi d).rssi = rssi ∧
        (Heltec.updEntry now name rssi d).lastSeen = now ∧
        (Heltec.updEntry now name rssi d).mac = d.mac ∧
        (Heltec.updEntry now name rssi d).deviceType = d.deviceType ∧
        (Heltec.updEntry now name rssi d).manufacturer = d.manufacturer ∧
        (d.name ≠ "Unknown" → (Heltec.updEntry now name rssi d).name = d.name) ∧
        (name = "Unknown" → (Heltec.updEntry now name rssi d).name = d.name) ∧
        (d.name = "Unknown" → name ≠ "Unknown" →
          (Heltec.updEntry now name rssi d).name = name)) := by
  constructor
  · intro whitelist now mac name rssi ty mfr devs hmem
    obtain ⟨d0, hd0mem, hd0mac⟩ := List.mem_map.mp hmem
    cases hup : Main.updateExisting now mac name rssi ty mfr devs with
    | none =>
      exact absurd hd0mac
        (((Main.updateExisting_eq_none_iff now mac name rssi ty mfr
          devs).mp hup) d0 hd0mem)
    | some res =>
      obtain ⟨l1, d, l2, hsplit, hl1, hdmac, hres⟩ :=
        Main.updateExisting_spec now mac name rssi ty mfr devs res hup
      have hlist : (Main.updateDeviceList whitelist now mac name rssi ty mfr
          devs).1 = l1 ++ Main.updEntry now name rssi ty mfr d :: l2 := by
        unfold Main.updateDeviceList
        rw [hup]
        simpa using hres
      have hlen : (Main.updateDeviceList whitelist now mac name rssi ty mfr
          devs).1.length = devs.length := by
        rw [hlist, hsplit]
        simp
      refine ⟨l1, d, l2, hsplit, hl1, hdmac, hlist, hlen, rfl, rfl, rfl, rfl,
        ?_, ?_, ?_, ?_, ?_, ?_, ?_, ?_, ?_⟩
      · intro h; simp [Main.updEntry, h]
      · intro h; simp [Main.updEntry, h]
      · intro h1 h2; simp [Main.updEntry, h1, h2]
      · intro h; simp [Main.updEntry, h]
      · intro h; simp [Main.updEntry, h]
      · intro h1 h2; simp [Main.updEntry, h1, h2]
      · intro h; simp [Main.updEntry, h]
      · intro h; simp [Main.updEntry, h]
      · intro h1 h2; simp [Main.updEntry, h1, h2]
  · intro now mac name rssi ty mfr hdevs hmem
    obtain ⟨d0, hd0mem, hd0mac⟩ := List.mem_map.mp hmem
    cases hup : Heltec.updateExisting now mac name rssi hdevs with
    | none =>
      exact absurd hd0mac
        (((Heltec.updateExisting_eq_none_iff_h now mac name rssi
          hdevs).mp hup) d0 hd0mem)
    | some res =>
      obtain ⟨l1, d, l2, hsplit, hl1, hdmac, hres⟩ :=
        Heltec.updateExisting_spec_h now mac name rssi hdevs res hup
      have hlist : Heltec.updateDeviceList now mac name rssi ty mfr hdevs =
          l1 ++ Heltec.updEntry now name rssi d :: l2 := by
        unfold Heltec.updateDeviceList
        rw [hup]
        simpa using hres
      have hlen : (Heltec.updateDeviceList now mac name rssi ty mfr
          hdevs).length = hdevs.length := by
        rw [hlist, hsplit]
        simp
      refine ⟨l1, d, l2, hsplit, hl1, hdmac, hlist, hlen, rfl, rfl, rfl, rfl,
        rfl, ?_, ?_, ?_⟩
      · intro h; simp [Heltec.updEntry, h]
      · intro h; simp [Heltec.updEntry, h]
      · intro h1 h2; simp [Heltec.updEntry, h1, h2]

/-- Witness for C5: a one-entry registry re-observed with fresh data. -/
theorem c5_reobserve_merge_witness :
    (∃ l1 d l2, [Main.mkDev "D0" 10] = l1 ++ d :: l2 ∧
      (∀ d' ∈ l1, d'.mac ≠ "D0") ∧ d.mac = "D0" ∧
      (Main.updateDeviceList [] 1000 "D0" "Phone-X" (-55) "Phone" "Apple"
        [Main.mkDev "D0" 10]).1 =
        l1 ++ Main.updEntry 1000 "Phone-X" (-55) "Phone" "Apple" d :: l2 ∧
      (Main.updateDeviceList [] 1000 "D0" "Phone-X" (-55) "Phone" "Apple"
        [Main.mkDev "D0" 10]).1.length = [Main.mkDev "D0" 10].length ∧
      (Main.updEntry 1000 "Phone-X" (-55) "Phone" "Apple" d).rssi = -55 ∧
      (Main.updEntry 1000 "Phone-X" (-55) "Phone" "Apple" d).lastSeen = 1000 ∧
      (Main.updEntry 1000 "Phone-X" (-55) "Phone" "Apple" d).mac = d.mac ∧
      (Main.updEntry 1000 "Phone-X" (-55) "Phone" "Apple" d).firstSeen =
        d.firstSeen ∧
      (d.name ≠ "Unknown" →
        (Main.updEntry 1000 "Phone-X" (-55) "Phone" "Apple" d).name =
          d.name) ∧
      ("Phone-X" = "Unknown" →
        (Main.updEntry 1000 "Phone-X" (-55) "Phone" "Apple" d).name =
          d.name) ∧
      (d.name = "Unknown" → "Phone-X" ≠ "Unknown" →
        (Main.updEntry 1000 "Phone-X" (-55) "Phone" "Apple" d).name =
          "Phone-X") ∧
      (d.deviceType ≠ "Unknown" →
        (Main.updEntry 1000 "Phone-X" (-55) "Phone" "Apple" d).deviceType =
          d.deviceType) ∧
      ("Phone" = "Unknown" →
        (Main.updEntry 1000 "Phone-X" (-55) "Phone" "Apple" d).deviceType =
          d.deviceType) ∧
      (d.deviceType = "Unknown" → "Phone" ≠ "Unknown" →
        (Main.updEntry 1000 "Phone-X" (-55) "Phone" "Apple" d).deviceType =
          "Phone") ∧
      (d.manufacturer ≠ "Unknown" →
        (Main.updEntry 1000 "Phone-X" (-55) "Phone" "Apple" d).manufacturer =
          d.manufacturer) ∧
      ("Apple" = "Unknown" →
        (Main.updEntry 1000 "Phone-X" (-55) "Phone" "Apple" d).manufacturer =
          d.manufacturer) ∧
      (d.manufacturer = "Unknown" → "Apple" ≠ "Unknown" →
        (Main.updEntry 1000 "Phone-X" (-55) "Phone" "Apple" d).manufacturer =
          "Apple")) ∧
    (∃ l1 d l2,
      [({ mac := "H0", name := "Unknown", rssi := -70,
          deviceType := "Unknown", manufacturer := "Unknown",
          lastSeen := 0 } : Heltec.BLEDeviceInfo)] = l1 ++ d :: l2 ∧
      (∀ d' ∈ l1, d'.mac ≠ "H0") ∧ d.mac = "H0" ∧
      Heltec.updateDeviceList 1000 "H0" "Tag-7" (-60) "Tracker" "Tile"
        [({ mac := "H0", name := "Unknown", rssi := -70,
            deviceType := "Unknown", manufacturer := "Unknown",
            lastSeen := 0 } : Heltec.BLEDeviceInfo)] =
        l1 ++ Heltec.updEntry 1000 "Tag-7" (-60) d :: l2 ∧
      (Heltec.updateDeviceList 1000 "H0" "Tag-7" (-60) "Tracker" "Tile"
        [({ mac := "H0", name := "Unknown", rssi := -70,
            deviceType := "Unknown", manufacturer := "Unknown",
            lastSeen := 0 } : Heltec.BLEDeviceInfo)]).length =
        [({ mac := "H0", name := "Unknown", rssi := -70,
            deviceType := "Unknown", manufacturer := "Unknown",
            lastSeen := 0 } : Heltec.BLEDeviceInfo)].length ∧
      (Heltec.updEntry 1000 "Tag-7" (-60) d).rssi = -60 ∧
      (Heltec.updEntry 1000 "Tag-7" (-60) d).lastSeen = 1000 ∧
      (Heltec.updEntry 1000 "Tag-7" (-60) d).mac = d.mac ∧
      (Heltec.updEntry 1000 "Tag-7" (-60) d).deviceType = d.deviceType ∧
      (Heltec.updEntry 1000 "Tag-7" (-60) d).manufacturer = d.manufacturer ∧
      (d.name ≠ "Unknown" → (Heltec.updEntry 1000 "Tag-7" (-60) d).name =
        d.name) ∧
      ("Tag-7" = "Unknown" → (Heltec.updEntry 1000 "Tag-7" (-60) d).name =
        d.name) ∧
      (d.name = "Unknown" → "Tag-7" ≠ "Unknown" →
        (Heltec.updEntry 1000 "Tag-7" (-60) d).name = "Tag-7")) :=
  ⟨c5_reobserve_merge.1 [] 1000 "D0" "Phone-X" (-55) "Phone" "Apple"
    [Main.mkDev "D0" 10] (by decide),
   c5_reobserve_merge.2 1000 "H0" "Tag-7" (-60) "Tracker" "Tile"
    [({ mac := "H0", name := "Unknown", rssi := -70,
        deviceType := "Unknown", manufacturer := "Unknown",
        lastSeen := 0 } : Heltec.BLEDeviceInfo)] (by decide)⟩

/-- C6: the unknown-device alert of `updateDeviceList` fires if and only if
the observed address has no entry yet (so a call made while the address is
tracked — the whole lifetime of its entry after creation — never re-emits it:
at most once per lifetime) and the new entry's trust status is not Known
(at creation `isNew` is true, so the status is Known exactly when the
whitelist matches).  Moreover the created entry is appended with its
alert-sent flag equal to whether the alert fired (set immediately after
emission). -/
theorem c6_alert_exactly_once_on_creation
    (whitelist : List Main.WhitelistEntry) (now : Nat) (mac name : String)
    (rssi : Int) (ty mfr : String) (devs : List Main.BLEDeviceInfo) :
    ((Main.updateDeviceList whitelist now mac name rssi ty mfr devs).2 = true
      ↔ ((∀ d ∈ devs, d.mac ≠ mac) ∧
          Main.isDeviceKnown whitelist mac = false)) ∧
    ((∀ d ∈ devs, d.mac ≠ mac) →
      ∃ pre e, (Main.updateDeviceList whitelist now mac name rssi ty mfr
          devs).1 = pre ++ [e] ∧
        e.mac = mac ∧ e.isNew = true ∧
        e.isKnown = Main.isDeviceKnown whitelist mac ∧
        e.firstSeen = now ∧ e.lastSeen = now ∧
        e.alertSent =
          (Main.updateDeviceList whitelist now mac name rssi ty mfr devs).2) := by
  cases hup : Main.updateExisting now mac name rssi ty mfr devs with
  | some res =>
    have hnotall : ¬ (∀ d ∈ devs, d.mac ≠ mac) := by
      intro hall
      have := (Main.updateExisting_eq_none_iff now mac name rssi ty mfr
        devs).mpr hall
      rw [hup] at this
      cases this
    have h2 : (Main.updateDeviceList whitelist now mac name rssi ty mfr
        devs).2 = false := by
      unfold Main.updateDeviceList
      rw [hup]
    constructor
    · rw [h2]
      constructor
      · intro h; cases h
      · rintro ⟨hall, -⟩; exact absurd hall hnotall
    · intro hall; exact absurd hall hnotall
  | none =>
    have key : Main.updateDeviceList whitelist now mac name rssi ty mfr devs =
        ((if Main.MAX_TRACKED_DEVICES ≤ devs.length
          then devs.eraseIdx (Main.weakestIndex devs) else devs) ++
         [if (!(Main.isDeviceKnown whitelist mac) && !false) then
            { mac := mac, name := name, rssi := rssi, deviceType := ty,
              manufacturer := mfr,
              isKnown := Main.isDeviceKnown whitelist mac, isNew := true,
              firstSeen := now, lastSeen := now, alertSent := true }
          else
            { mac := mac, name := name, rssi := rssi, deviceType := ty,
              manufacturer := mfr,
              isKnown := Main.isDeviceKnown whitelist mac, isNew := true,
              firstSeen := now, lastSeen := now, alertSent := false }],
         (!(Main.isDeviceKnown whitelist mac) && !false)) := by
      unfold Main.updateDeviceList
      rw [hup]
    have hall := (Main.updateExisting_eq_none_iff now mac name rssi ty mfr
      devs).mp hup
    cases hk : Main.isDeviceKnown whitelist mac with
    | true =>
      rw [hk] at key
      simp at key
      refine ⟨?_, ?_⟩
      · rw [key]
        simp [hall, hk]
      · intro _
        exact ⟨_, _, by rw [key], rfl, rfl, by simp [hk], rfl, rfl,
          by simp [key]⟩
    | false =>
      rw [hk] at key
      simp at key
      refine ⟨?_, ?_⟩
      · rw [key]
        simp [hk]
        exact hall
      · intro _
        exact ⟨_, _, by rw [key], rfl, rfl, by simp [hk], rfl, rfl,
          by simp [key]⟩

/-- Witness for C6: first sight of an address with an empty whitelist. -/
theorem c6_alert_exactly_once_on_creation_witness :
    (∀ d ∈ ([] : List Main.BLEDeviceInfo), d.mac ≠ "D0") ∧
    (∃ pre e,
      (Main.updateDeviceList [] 0 "D0" "Unknown" (-40) "Unknown" "Unknown"
        []).1 = pre ++ [e] ∧
      e.mac = "D0" ∧ e.isNew = true ∧
      e.isKnown = Main.isDeviceKnown [] "D0" ∧
      e.firstSeen = 0 ∧ e.lastSeen = 0 ∧
      e.alertSent =
        (Main.updateDeviceList [] 0 "D0" "Unknown" (-40) "Unknown" "Unknown"
          []).2) :=
  ⟨by decide,
   (c6_alert_exactly_once_on_creation [] 0 "D0" "Unknown" (-40) "Unknown"
     "Unknown" []).2 (by decide)⟩

/-- C10: every removal — stale sweep or capacity eviction — shifts survivors
down without reordering: after any single `observe` or `sweep` step, in either
variant, the registry's key sequence is a subsequence of the previous key
sequence (survivors in their old relative order) followed by at most one new
key (the observed address, appended at the end on creation).  Iterating this
step keeps iteration order equal to insertion order of the survivors. -/
theorem c10_removals_preserve_order (whitelist : List Main.WhitelistEntry)
    (now : Nat) (mac name : String) (rssi : Int) (ty mfr : String)
    (devs : List Main.BLEDeviceInfo) (hdevs : List Heltec.BLEDeviceInfo) :
    (∃ kept app,
      ((Main.updateDeviceList whitelist now mac name rssi ty mfr
        devs).1).map (fun d => d.mac) = kept ++ app ∧
      List.Sublist kept (devs.map (fun d => d.mac)) ∧
      (app = [] ∨ app = [mac])) ∧
    List.Sublist ((Main.pruneStaleDevices now devs).map (fun d => d.mac))
      (devs.map (fun d => d.mac)) ∧
    (∃ kept app,
      (Heltec.updateDeviceList now mac name rssi ty mfr hdevs).map
        (fun d => d.mac) = kept ++ app ∧
      List.Sublist kept (hdevs.map (fun d => d.mac)) ∧
      (app = [] ∨ app = [mac])) ∧
    List.Sublist ((Heltec.pruneStaleDevices now hdevs).map (fun d => d.mac))
      (hdevs.map (fun d => d.mac)) := by
  refine ⟨?_, ?_, ?_, ?_⟩
  · cases hup : Main.updateExisting now mac name rssi ty mfr devs with
    | some res =>
      refine ⟨devs.map (fun d => d.mac), [], ?_, List.Sublist.refl _,
        Or.inl rfl⟩
      have h1 : (Main.updateDeviceList whitelist now mac name rssi ty mfr
          devs).1 = res := by
        unfold Main.updateDeviceList
        rw [hup]
      rw [h1, Main.updateExisting_map_mac now mac name rssi ty mfr devs res
        hup]
      simp
    | none =>
      have hmap : ((Main.updateDeviceList whitelist now mac name rssi ty mfr
          devs).1).map (fun d => d.mac) =
          ((if Main.MAX_TRACKED_DEVICES ≤ devs.length
            then devs.eraseIdx (Main.weakestIndex devs)
            else devs).map (fun d => d.mac)) ++ [mac] := by
        unfold Main.updateDeviceList
        rw [hup]
        simp [apply_ite (fun d : Main.BLEDeviceInfo => d.mac)]
      refine ⟨_, [mac], hmap, ?_, Or.inr rfl⟩
      by_cases hcap : Main.MAX_TRACKED_DEVICES ≤ devs.length
      · rw [if_pos hcap, map_eraseIdx_comm]
        exact List.eraseIdx_sublist _ _
      · rw [if_neg hcap]
  · exact List.Sublist.map _ (Main.pruneStaleDevices_sublist now devs)
  · cases hup : Heltec.updateExisting now mac name rssi hdevs with
    | some res =>
      refine ⟨hdevs.map (fun d => d.mac), [], ?_, List.Sublist.refl _,
        Or.inl rfl⟩
      have h1 : Heltec.updateDeviceList now mac name rssi ty mfr hdevs =
          res := by
        unfold Heltec.updateDeviceList
        rw [hup]
      rw [h1, Heltec.updateExisting_map_mac_h now mac name rssi hdevs res hup]
      simp
    | none =>
      have hmap : (Heltec.updateDeviceList now mac name rssi ty mfr
          hdevs).map (fun d => d.mac) =
          ((if Heltec.MAX_TRACKED_DEVICES ≤ hdevs.length
            then hdevs.eraseIdx (Heltec.oldestIndex hdevs)
            else hdevs).map (fun d => d.mac)) ++ [mac] := by
        unfold Heltec.updateDeviceList
        rw [hup]
        simp
      refine ⟨_, [mac], hmap, ?_, Or.inr rfl⟩
      by_cases hcap : Heltec.MAX_TRACKED_DEVICES ≤ hdevs.length
      · rw [if_pos hcap, map_eraseIdx_comm]
        exact List.eraseIdx_sublist _ _
      · rw [if_neg hcap]
  · exact List.Sublist.map _ (Heltec.pruneStaleDevices_sublist_h now hdevs)

set_option maxRecDepth 10000 in
/-- C2 counterexample: the weakest-signal eviction scan starts from
`weakestRSSI = 0`, so in a full registry whose RSSI values are all
non-negative the first entry is evicted regardless of signal strength.
`devsAtCap` is a 50-entry registry (entry "D0" has RSSI 10, entry "D1" has
the unique minimum RSSI 3); observing the unseen address "NEWMAC" evicts
"D0", not the lowest-signal entry "D1" that the claim designates. -/
theorem c2_eviction_policy_counterexample :
    Main.devsAtCap.length = Main.MAX_TRACKED_DEVICES ∧
    (∀ d ∈ Main.devsAtCap, d.mac ≠ "NEWMAC") ∧
    (∃ d ∈ Main.devsAtCap, d.rssi = 3 ∧ d.mac = "D1") ∧
    (∃ d ∈ Main.devsAtCap, d.rssi = 10 ∧ d.mac = "D0") ∧
    (∀ d ∈ Main.devsAtCap, 3 ≤ d.rssi) ∧
    ("D1" ∈ ((Main.updateDeviceList [] 0 "NEWMAC" "Unknown" (-40) "Unknown"
      "Unknown" Main.devsAtCap).1.map (fun d => d.mac))) ∧
    ("D0" ∉ ((Main.updateDeviceList [] 0 "NEWMAC" "Unknown" (-40) "Unknown"
      "Unknown" Main.devsAtCap).1.map (fun d => d.mac))) := by decide

/-- C2 amended: over-capacity inserts remove exactly one entry; the
weakest-signal victim is the first entry attaining the minimum RSSI provided
some entry has a negative RSSI (when every RSSI is ≥ 0 the scan's initial
best value 0 is never beaten and entry 0 is evicted); the oldest-activity
victim is unconditionally the first entry attaining the minimum last-seen
timestamp. -/
theorem c2_eviction_policy_amended :
    (∀ devs : List Main.BLEDeviceInfo, (∃ d ∈ devs, d.rssi < 0) →
      Main.weakestIndex devs < devs.length ∧
      (∀ d ∈ devs,
        (devs.getD (Main.weakestIndex devs) default).rssi ≤ d.rssi) ∧
      (∀ k, k < Main.weakestIndex devs →
        (devs.getD (Main.weakestIndex devs) default).rssi <
          (devs.getD k default).rssi)) ∧
    (∀ devs : List Main.BLEDeviceInfo, (∀ d ∈ devs, 0 ≤ d.rssi) →
      Main.weakestIndex devs = 0) ∧
    (∀ hdevs : List Heltec.BLEDeviceInfo, hdevs ≠ [] →
      Heltec.oldestIndex hdevs < hdevs.length ∧
      (∀ d ∈ hdevs,
        (hdevs.getD (Heltec.oldestIndex hdevs) default).lastSeen ≤
          d.lastSeen) ∧
      (∀ k, k < Heltec.oldestIndex hdevs →
        (hdevs.getD (Heltec.oldestIndex hdevs) default).lastSeen <
          (hdevs.getD k default).lastSeen)) ∧
    (∀ (whitelist : List Main.WhitelistEntry) (now : Nat) (mac name : String)
      (rssi : Int) (ty mfr : String) (devs : List Main.BLEDeviceInfo),
      devs.length = Main.MAX_TRACKED_DEVICES → (∀ d ∈ devs, d.mac ≠ mac) →
      ((Main.updateDeviceList whitelist now mac name rssi ty mfr devs).1.map
          (fun d => d.mac) =
        (devs.map (fun d => d.mac)).eraseIdx (Main.weakestIndex devs) ++
          [mac] ∧
       (Main.updateDeviceList whitelist now mac name rssi ty mfr
          devs).1.length = devs.length)) ∧
    (∀ (now : Nat) (mac name : String) (rssi : Int) (ty mfr : String)
      (hdevs : List Heltec.BLEDeviceInfo),
      hdevs.length = Heltec.MAX_TRACKED_DEVICES →
      (∀ d ∈ hdevs, d.mac ≠ mac) →
      ((Heltec.updateDeviceList now mac name rssi ty mfr hdevs).map
          (fun d => d.mac) =
        (hdevs.map (fun d => d.mac)).eraseIdx (Heltec.oldestIndex hdevs) ++
          [mac] ∧
       (Heltec.updateDeviceList now mac name rssi ty mfr hdevs).length =
          hdevs.length)) := by
  refine ⟨?_, ?_, ?_, ?_, ?_⟩
  · rintro devs ⟨dneg, hdnegmem, hdnegrssi⟩
    rcases scanMinFrom_char (fun d : Main.BLEDeviceInfo => d.rssi) devs 0
        (0, 0) with ⟨heq, hall⟩ | ⟨j, hj, h1, h2, h3, h4, h5⟩
    · exact absurd (hall dneg hdnegmem) (by omega)
    · have hwi : Main.weakestIndex devs = j := by
        unfold Main.weakestIndex
        omega
      have hwlt : Main.weakestIndex devs < devs.length := by omega
      refine ⟨hwlt, ?_, ?_⟩
      · intro d hd
        rw [hwi, getD_eq_get hj]
        rw [← h2]
        exact h4 d hd
      · intro k hk
        rw [hwi] at hk
        rw [hwi, getD_eq_get hj, getD_eq_get (Nat.lt_trans hk hj), ← h2]
        exact h5 k hk
  · intro devs hpos
    rcases scanMinFrom_char (fun d : Main.BLEDeviceInfo => d.rssi) devs 0
        (0, 0) with ⟨heq, -⟩ | ⟨j, hj, h1, h2, h3, -⟩
    · unfold Main.weakestIndex
      rw [heq]
    · exfalso
      have := hpos _ (List.get_mem devs j hj)
      rw [← h2] at this
      omega
  · intro hdevs hne
    match hdevs, hne with
    | d :: rest, _ =>
      rcases scanMinFrom_char (fun x : Heltec.BLEDeviceInfo => x.lastSeen)
          rest 1 (0, d.lastSeen) with ⟨heq, hall⟩ | ⟨j, hj, h1, h2, h3, h4, h5⟩
      · have hoi : Heltec.oldestIndex (d :: rest) = 0 := by
          show (scanMinFrom (fun x : Heltec.BLEDeviceInfo => x.lastSeen) 1
            (0, d.lastSeen) rest).1 = 0
          rw [heq]
        refine ⟨by rw [hoi]; simp, ?_, ?_⟩
        · intro x hx
          rw [hoi]
          rcases List.mem_cons.mp hx with rfl | hx'
          · simp
          · simpa using hall x hx'
        · intro k hk
          rw [hoi] at hk
          omega
      · have hval : (scanMinFrom (fun x : Heltec.BLEDeviceInfo => x.lastSeen)
            1 (0, d.lastSeen) rest).2 = (rest.get ⟨j, hj⟩).lastSeen := h2
        have hoi : Heltec.oldestIndex (d :: rest) = 1 + j := by
          show (scanMinFrom (fun x : Heltec.BLEDeviceInfo => x.lastSeen) 1
            (0, d.lastSeen) rest).1 = 1 + j
          exact h1
        have hgd : (d :: rest).getD (Heltec.oldestIndex (d :: rest)) default =
            rest.get ⟨j, hj⟩ := by
          rw [hoi, Nat.add_comm 1 j, List.getD_cons_succ, getD_eq_get hj]
        refine ⟨?_, ?_, ?_⟩
        · rw [hoi]
          simp
          omega
        · intro x hx
          rw [hgd, ← hval]
          rcases List.mem_cons.mp hx with rfl | hx'
          · exact le_of_lt h3
          · exact h4 x hx'
        · intro k hk
          rw [hoi] at hk
          rw [hgd, ← hval]
          match k, hk with
          | 0, _ => simpa using h3
          | k' + 1, hk' =>
            have hk'j : k' < j := by omega
            rw [List.getD_cons_succ,
              getD_eq_get (Nat.lt_trans hk'j hj)]
            exact h5 k' hk'j
  · intro whitelist now mac name rssi ty mfr devs hlen hall
    have hup : Main.updateExisting now mac name rssi ty mfr devs = none :=
      (Main.updateExisting_eq_none_iff now mac name rssi ty mfr devs).mpr hall
    have hcap : Main.MAX_TRACKED_DEVICES ≤ devs.length := le_of_eq hlen.symm
    have hne : devs ≠ [] := by
      intro hnil
      rw [hnil] at hlen
      simp [Main.MAX_TRACKED_DEVICES] at hlen
    have hlt := Main.weakestIndex_lt devs hne
    have hmap : ((Main.updateDeviceList whitelist now mac name rssi ty mfr
        devs).1).map (fun d => d.mac) =
        ((if Main.MAX_TRACKED_DEVICES ≤ devs.length
          then devs.eraseIdx (Main.weakestIndex devs)
          else devs).map (fun d => d.mac)) ++ [mac] := by
      unfold Main.updateDeviceList
      rw [hup]
      simp [apply_ite (fun d : Main.BLEDeviceInfo => d.mac)]
    constructor
    · rw [hmap, if_pos hcap, map_eraseIdx_comm]
    · have h := congrArg List.length hmap
      rw [List.length_map] at h
      rw [h, if_pos hcap, List.length_append, List.length_map,
        List.length_eraseIdx]
      simp [hlt]
      omega
  · intro now mac name rssi ty mfr hdevs hlen hall
    have hup : Heltec.updateExisting now mac name rssi hdevs = none :=
      (Heltec.updateExisting_eq_none_iff_h now mac name rssi hdevs).mpr hall
    have hcap : Heltec.MAX_TRACKED_DEVICES ≤ hdevs.length := le_of_eq hlen.symm
    have hne : hdevs ≠ [] := by
      intro hnil
      rw [hnil] at hlen
      simp [Heltec.MAX_TRACKED_DEVICES] at hlen
    have hlt := Heltec.oldestIndex_lt hdevs hne
    have hmap : (Heltec.updateDeviceList now mac name rssi ty mfr hdevs).map
        (fun d => d.mac) =
        ((if Heltec.MAX_TRACKED_DEVICES ≤ hdevs.length
          then hdevs.eraseIdx (Heltec.oldestIndex hdevs)
          else hdevs).map (fun d => d.mac)) ++ [mac] := by
      unfold Heltec.updateDeviceList
      rw [hup]
      simp
    constructor
    · rw [hmap, if_pos hcap, map_eraseIdx_comm]
    · have h := congrArg List.length hmap
      rw [List.length_map] at h
      rw [h, if_pos hcap, List.length_append, List.length_map,
        List.length_eraseIdx]
      simp [hlt]
      omega

/-- Witness for C2 amended, at one-entry registries and at the full
50-entry (resp. a full 30-entry) registry. -/
theorem c2_eviction_policy_amended_witness :
    (Main.weakestIndex [Main.mkDev "D9" (-5)] <
      [Main.mkDev "D9" (-5)].length ∧
     (∀ d ∈ [Main.mkDev "D9" (-5)],
       ([Main.mkDev "D9" (-5)].getD
         (Main.weakestIndex [Main.mkDev "D9" (-5)]) default).rssi ≤
         d.rssi) ∧
     (∀ k, k < Main.weakestIndex [Main.mkDev "D9" (-5)] →
       ([Main.mkDev "D9" (-5)].getD
         (Main.weakestIndex [Main.mkDev "D9" (-5)]) default).rssi <
         ([Main.mkDev "D9" (-5)].getD k default).rssi)) ∧
    Main.weakestIndex Main.devsAtCap = 0 ∧
    Heltec.oldestIndex [Heltec.sampleDev] < [Heltec.sampleDev].length :=
  ⟨(c2_eviction_policy_amended.1 [Main.mkDev "D9" (-5)]
      ⟨Main.mkDev "D9" (-5), by decide, by decide⟩),
   (c2_eviction_policy_amended.2.1 Main.devsAtCap (by decide)),
   (c2_eviction_policy_amended.2.2.1 [Heltec.sampleDev] (by decide)).1⟩

/-- C3 counterexample: `e0` is the entry created by observing an unknown
address at `millis() = 0` with an empty whitelist.  At `now = 300000` the
new-device threshold has elapsed and the address is not allow-listed, so the
claim requires the reported status to be Unknown; but `drawDeviceRow` colours
the row from the cached `isKnown`/`isNew` flags of the unchanged entry (no
further observation occurred), which still give the New colour — trust status
is recomputed at observation time, not at snapshot time. -/
theorem c3_trust_status_counterexample :
    (Main.updateDeviceList [] 0 "AA:BB:CC:DD:EE:FF" "Unknown" (-40) "Unknown"
      "Unknown" []).1 = [Main.e0] ∧
    Main.isDeviceKnown [] "AA:BB:CC:DD:EE:FF" = false ∧
    ¬ (usub 300000 Main.e0.firstSeen < Main.NEW_DEVICE_THRESHOLD) ∧
    Main.statusColor Main.e0 = Main.COLOR_NEW ∧
    Main.COLOR_NEW ≠ Main.COLOR_UNKNOWN := by decide

/-- C3 amended: the displayed trust status is derived from flags cached at
observation time.  When a non-whitelisted address is re-observed, its entry's
`isNew` flag — and hence the colour `drawDeviceRow` will paint — is
recomputed from `now - first_seen < NEW_DEVICE_THRESHOLD` as of that
observation; a device that is never re-observed keeps its creation-time New
status indefinitely. -/
theorem c3_trust_status_amended (whitelist : List Main.WhitelistEntry)
    (now : Nat) (mac name : String) (rssi : Int) (ty mfr : String)
    (d : Main.BLEDeviceInfo) (rest : List Main.BLEDeviceInfo)
    (h1 : d.mac = mac) (h2 : d.isKnown = false) :
    Main.statusColor
      (((Main.updateDeviceList whitelist now mac name rssi ty mfr
        (d :: rest)).1).getD 0 default) =
      (if usub now d.firstSeen < Main.NEW_DEVICE_THRESHOLD then Main.COLOR_NEW
       else Main.COLOR_UNKNOWN) := by
  have hup : Main.updateExisting now mac name rssi ty mfr (d :: rest) =
      some (Main.updEntry now name rssi ty mfr d :: rest) := by
    simp [Main.updateExisting, h1]
  have hl : (Main.updateDeviceList whitelist now mac name rssi ty mfr
      (d :: rest)).1 = Main.updEntry now name rssi ty mfr d :: rest := by
    unfold Main.updateDeviceList
    rw [hup]
  rw [hl]
  by_cases hc : usub now d.firstSeen < Main.NEW_DEVICE_THRESHOLD
  · simp [Main.statusColor, Main.updEntry, h2, hc]
  · simp [Main.statusColor, Main.updEntry, h2, hc]

/-- Witness for C3 amended: re-observing `e0` exactly when the threshold
elapses flips the displayed colour to Unknown. -/
theorem c3_trust_status_amended_witness :
    Main.statusColor
      (((Main.updateDeviceList [] 300000 "AA:BB:CC:DD:EE:FF" "Unknown" (-40)
        "Unknown" "Unknown" (Main.e0 :: [])).1).getD 0 default) =
      (if usub 300000 Main.e0.firstSeen < Main.NEW_DEVICE_THRESHOLD then
        Main.COLOR_NEW else Main.COLOR_UNKNOWN) :=
  c3_trust_status_amended [] 300000 "AA:BB:CC:DD:EE:FF" "Unknown" (-40)
    "Unknown" "Unknown" Main.e0 [] (by decide) (by decide)

/-- C7: whenever the manufacturer-data field is present, at least 2 bytes
long, and its first two bytes form the little-endian identifier 0x004C,
`detectManufacturer` returns "Apple" — for every advertised name and every
service UUID the record may also carry, since the manufacturer lookup never
consults them. -/
theorem c7_manufacturer_data_priority (dev : AdvRecord) (md : List Nat)
    (h1 : dev.manufacturerData = some md) (h2 : 2 ≤ md.length)
    (h3 : mfgIdOf md = 0x004C) :
    Main.detectManufacturer dev = "Apple" := by
  unfold Main.detectManufacturer
  rw [h1]
  simp [h2, h3]

/-- Witness for C7: a record whose manufacturer data says Apple (0x004C,
little-endian) while its name matches the "galaxy" phone pattern and its
service UUID matches the heart-rate (180d) rule. -/
theorem c7_manufacturer_data_priority_witness :
    (({ name := some "Galaxy Buds Beacon", rssi := -40,
        manufacturerData := some [0x4C, 0x00, 0x10],
        serviceUUID :=
          some "0000180d-0000-1000-8000-00805f9b34fb" } :
        AdvRecord).manufacturerData = some [0x4C, 0x00, 0x10]) ∧
    2 ≤ ([0x4C, 0x00, 0x10] : List Nat).length ∧
    mfgIdOf [0x4C, 0x00, 0x10] = 0x004C ∧
    Main.detectManufacturer
      { name := some "Galaxy Buds Beacon", rssi := -40,
        manufacturerData := some [0x4C, 0x00, 0x10],
        serviceUUID :=
          some "0000180d-0000-1000-8000-00805f9b34fb" } = "Apple" :=
  ⟨rfl, by decide, by decide,
   c7_manufacturer_data_priority
     { name := some "Galaxy Buds Beacon", rssi := -40,
       manufacturerData := some [0x4C, 0x00, 0x10],
       serviceUUID := some "0000180d-0000-1000-8000-00805f9b34fb" }
     [0x4C, 0x00, 0x10] rfl (by decide) (by decide)⟩

/-- C8 counterexample: in the scan-complete branch of `loop()` the
cycle-completion time is recorded first (`lastScanTime = millis()` precedes
`pruneStaleDevices()`), not after the sweep and the snapshot publication as
the claim requires, and the only collaborator notified is the display — no
network post, SD log or alert dispatch happens in this branch (the server
POST is disabled in the main variant). -/
theorem c8_cycle_completion_counterexample :
    ((Main.loopScanComplete 6000
        { scanInProgress := true, lastScanTime := 0, devices := [] }).2.findIdx
      (fun e => e == LoopEvent.recordLastScanTime) <
     (Main.loopScanComplete 6000
        { scanInProgress := true, lastScanTime := 0, devices := [] }).2.findIdx
      (fun e => e == LoopEvent.pruneStale)) ∧
    LoopEvent.networkPost ∉ (Main.loopScanComplete 6000
      { scanInProgress := true, lastScanTime := 0, devices := [] }).2 ∧
    LoopEvent.sdLog ∉ (Main.loopScanComplete 6000
      { scanInProgress := true, lastScanTime := 0, devices := [] }).2 ∧
    LoopEvent.alertDispatch ∉ (Main.loopScanComplete 6000
      { scanInProgress := true, lastScanTime := 0, devices := [] }).2 := by
  decide

/-- C8 amended: on scan completion the controller first records the
cycle-completion time, then runs the stale-reaper sweep, then updates the
display (the only per-cycle snapshot consumer in the main variant, whose
server POST is disabled); the Heltec variant additionally posts to the
server after the display update, exactly when WiFi is connected and at
least one device survived the sweep. -/
theorem c8_cycle_completion_amended (now : Nat) (s : Main.LoopState)
    (hs : Heltec.LoopState) :
    ((Main.loopScanComplete now s).2.findIdx
      (fun e => e == LoopEvent.recordLastScanTime) = 0) ∧
    ((Main.loopScanComplete now s).2.findIdx
      (fun e => e == LoopEvent.pruneStale) = 1) ∧
    ((Main.loopScanComplete now s).2.findIdx
      (fun e => e == LoopEvent.drawDisplay) = 2) ∧
    LoopEvent.networkPost ∉ (Main.loopScanComplete now s).2 ∧
    (Main.loopScanComplete now s).1.lastScanTime = now ∧
    (Main.loopScanComplete now s).1.devices =
      Main.pruneStaleDevices now s.devices ∧
    (Main.loopScanComplete now s).1.scanInProgress = false ∧
    ((Heltec.loopScanComplete now hs).2.findIdx
      (fun e => e == LoopEvent.recordLastScanTime) = 0) ∧
    ((Heltec.loopScanComplete now hs).2.findIdx
      (fun e => e == LoopEvent.pruneStale) = 1) ∧
    ((Heltec.loopScanComplete now hs).2.findIdx
      (fun e => e == LoopEvent.drawDisplay) = 2) ∧
    (LoopEvent.networkPost ∈ (Heltec.loopScanComplete now hs).2 ↔
      (hs.wifiConnected = true ∧
        0 < (Heltec.pruneStaleDevices now hs.devices).length)) ∧
    (hs.wifiConnected = true →
      0 < (Heltec.pruneStaleDevices now hs.devices).length →
      (Heltec.loopScanComplete now hs).2.findIdx
        (fun e => e == LoopEvent.networkPost) = 3) ∧
    (Heltec.loopScanComplete now hs).1.lastScanTime = now ∧
    (Heltec.loopScanComplete now hs).1.devices =
      Heltec.pruneStaleDevices now hs.devices := by
  refine ⟨rfl, rfl, rfl, by simp [Main.loopScanComplete], rfl, rfl, rfl,
    ?_, ?_, ?_, ?_, ?_, rfl, rfl⟩ <;>
    by_cases hw : hs.wifiConnected = true <;>
    by_cases hp : 0 < (Heltec.pruneStaleDevices now hs.devices).length <;>
    simp [Heltec.loopScanComplete, hw, hp] <;>
    rfl

/-- Witness for C8 amended: with WiFi connected and one fresh device, the
Heltec variant posts to the server right after the display update. -/
theorem c8_cycle_completion_amended_witness :
    (Heltec.loopScanComplete 6000
      { scanInProgress := true, lastScanTime := 0, wifiConnected := true,
        devices := [Heltec.sampleDev] }).2.findIdx
      (fun e => e == LoopEvent.networkPost) = 3 :=
  (c8_cycle_completion_amended 6000
    { scanInProgress := true, lastScanTime := 0, devices := [] }
    { scanInProgress := true, lastScanTime := 0, wifiConnected := true,
      devices :=
        [Heltec.sampleDev] }).2.2.2.2.2.2.2.2.2.2.2.1 rfl (by decide)

end BLEScanner
